import Mathlib

/-!
Shallow embedding of the ancdotario-user-service photo lifecycle and batch
deletion engine, translated from the Python sources:

  * src/photo-upload/app.py  (create_image_versions,
    delete_user_photos_optimized, lambda_handler)
  * src/batch-delete/app.py  (handle_batch_deletion, validate_batch_users,
    process_batch_deletions, delete_single_user_with_timeout,
    delete_user_photos)
  * src/photo-delete/app.py  (lambda_handler)
  * src/shared/models/user.py (the User record)

The object store (S3) is modelled as an explicit state: an ordered list of
keys plus fault oracles describing which calls throw and which per-key
results the store reports as errors.  Every embedded operation threads the
store state and returns the trace of store calls it issued, so claims about
"zero calls" or "the delete never targets the fresh keys" are statements
about the trace.  The ThreadPoolExecutor in process_batch_deletions is
modelled by a sequential fold over the validated users: tasks touch
disjoint per-owner data, so this is a faithful linearisation for the
per-owner outcome claims proved here.
-/

namespace UserService

/-- Python truthiness of an optional string field (`None` and `""` are falsy). -/
def truthy : Option String → Bool
  | none => false
  | some s => s ≠ ""

/-- Does `sub` occur somewhere in `s`?  (Python `sub in s`, on char lists;
structural recursion so that concrete instances evaluate in the kernel.) -/
def hasSubList (sub : List Char) : List Char → Bool
  | [] => sub.isEmpty
  | c :: rest => sub.isPrefixOf (c :: rest) || hasSubList sub rest

/-- `sub in s` for strings (Python substring test). -/
def containsSub (s sub : String) : Bool :=
  hasSubList sub.data s.data

/-- Python `str.split(sep)` for a non-empty separator: left-to-right,
non-overlapping matches.  Implemented with a structural fuel argument (the
input length) so it reduces in the kernel. -/
def splitGo (sep : List Char) : Nat → List Char → List (List Char)
  | _, [] => [[]]
  | 0, l => [l]
  | fuel + 1, c :: rest =>
    if sep.isPrefixOf (c :: rest) then
      [] :: splitGo sep fuel ((c :: rest).drop sep.length)
    else
      match splitGo sep fuel rest with
      | [] => [[c]]
      | p :: ps => (c :: p) :: ps

/-- Python `s.split(sep)` (`sep` non-empty in every use below). -/
def pySplit (s sep : String) : List String :=
  if sep = "" then [s]
  else (splitGo sep.data s.data.length s.data).map String.mk

/-- `url.split('.s3.amazonaws.com/')[-1].split('?')[0]` from
delete_user_photos_optimized: recover the object key embedded in a stored URL
(dropping any query parameters). -/
def extractKeyFromUrl (url : String) : String :=
  ((pySplit ((pySplit url ".s3.amazonaws.com/").getLastD "") "?").headD "")

/-- The durable user record (src/shared/models/user.py).  Only the fields the
photo lifecycle reads or writes are modelled; timestamps and the normalized
nickname are irrelevant to the claims. -/
structure User where
  cognito_id : String
  nickname : String
  thumbnail_url : Option String := none
  standard_s3_key : Option String := none
  high_res_s3_key : Option String := none
  image_url : Option String := none
  deriving Repr, DecidableEq

/-- The user table, with `User.get` as lookup by primary key. -/
def dbGet (db : List User) (id : String) : Option User :=
  db.find? (fun u => u.cognito_id == id)

/-- `User.get_by_nickname` (first match; the GSI is modelled as a scan). -/
def dbGetByNickname (db : List User) (nick : String) : Option User :=
  db.find? (fun u => u.nickname == nick)

/-- `user.save()`: overwrite the row with this primary key, or insert it. -/
def dbSave (db : List User) (u : User) : List User :=
  if db.any (fun v => v.cognito_id == u.cognito_id) then
    db.map (fun v => if v.cognito_id == u.cognito_id then u else v)
  else
    db ++ [u]

/-- `user.delete()`: remove the row with this primary key. -/
def dbDelete (db : List User) (id : String) : List User :=
  db.filter (fun u => u.cognito_id ≠ id)

/-- `has_photos` as computed in photo-upload, photo-delete and batch-delete:
any of the four photo fields is truthy. -/
def hasPhotos (u : User) : Bool :=
  truthy u.thumbnail_url || truthy u.standard_s3_key ||
  truthy u.high_res_s3_key || truthy u.image_url

/-- One S3 client call, as recorded in the traces. -/
inductive S3Call where
  | putObject (key : String)
  | deleteObjects (keys : List String)
  | deleteObject (key : String)
  | listObjects (pfx : String) (maxKeys : Option Nat)
  | presignUrl (key : String)
  deriving Repr, DecidableEq

/-- The object store: current contents (in listing order) plus fault oracles.
`bulkFails ks` - whether `delete_objects` on exactly `ks` raises ClientError;
`keyError k` - whether a non-raising `delete_objects` reports `k` under
`Errors` instead of `Deleted`; `singleFails k` - whether `delete_object k`
raises; `putFails k` - whether `put_object k` raises; `listFails` - whether
`list_objects_v2` raises. -/
structure S3World where
  objects : List String
  bulkFails : List String → Bool := fun _ => false
  keyError : String → Bool := fun _ => false
  singleFails : String → Bool := fun _ => false
  putFails : String → Bool := fun _ => false
  listFails : Bool := false
  errMsg : String → String := fun _ => "AccessDenied"
  errCode : String → String := fun _ => "AccessDenied"
  presign : String → String := fun k => "https://presigned/" ++ k

/-- Effect of a non-raising `delete_objects`: keys the store reports deleted. -/
def bulkDeleted (w : S3World) (ks : List String) : List String :=
  ks.filter (fun k => !w.keyError k)

/-- Keys a non-raising `delete_objects` reports under `Errors`. -/
def bulkErrored (w : S3World) (ks : List String) : List String :=
  ks.filter (fun k => w.keyError k)

/-- Store contents after a non-raising `delete_objects` on `ks`. -/
def afterBulkDelete (w : S3World) (ks : List String) : S3World :=
  { w with objects := w.objects.filter (fun k => !(bulkDeleted w ks).contains k) }

/-- Store contents after a successful `delete_object k`. -/
def afterSingleDelete (w : S3World) (k : String) : S3World :=
  { w with objects := w.objects.filter (fun k' => k' ≠ k) }

/-- Store contents after a successful `put_object k`. -/
def afterPut (w : S3World) (k : String) : S3World :=
  { w with objects := if w.objects.contains k then w.objects else w.objects ++ [k] }

/-- `k.startswith(pfx)`, on the underlying char lists (kernel-reducible). -/
def strStarts (k pfx : String) : Bool :=
  pfx.data.isPrefixOf k.data

/-- Keys returned by a non-raising `list_objects_v2` with key prefix `pfx`
and an optional `MaxKeys` cap. -/
def listUnder (w : S3World) (pfx : String) (maxKeys : Option Nat) : List String :=
  match maxKeys with
  | none => w.objects.filter (fun k => strStarts k pfx)
  | some n => (w.objects.filter (fun k => strStarts k pfx)).take n

/-! ### Image version deriver (photo-upload/app.py, create_image_versions) -/

/-- A decoded PIL image, abstracted to the data the deriver's control flow and
dimension arithmetic depend on: pixel dimensions, color mode and whether EXIF
data is present.  Pixel contents are not modelled (the spec makes only the
dimension/crop-box behavior contractual). -/
structure PImage where
  width : Nat
  height : Nat
  mode : String := "RGB"
  hasExif : Bool := false
  deriving Repr, DecidableEq

/-- EXIF strip: rebuilds the image with the same mode and size. -/
def stripExif (img : PImage) : PImage :=
  if img.hasExif then { img with hasExif := false } else img

/-- Color-mode normalisation: RGBA/LA are flattened onto a white RGB
background; anything that is not RGB or L is converted to RGB.  Dimensions
are preserved. -/
def normalizeMode (img : PImage) : PImage :=
  if img.mode = "RGBA" ∨ img.mode = "LA" then { img with mode := "RGB" }
  else if ¬(img.mode = "RGB" ∨ img.mode = "L") then { img with mode := "RGB" }
  else img

/-- `image.crop((left, top, right, bottom))`. -/
def cropImage (img : PImage) (left top right bottom : Nat) : PImage :=
  { img with width := right - left, height := bottom - top }

/-- `image.resize((w, h))` (LANCZOS resampling; only dimensions modelled). -/
def resizeImage (img : PImage) (w h : Nat) : PImage :=
  { img with width := w, height := h }

/-- Defaults of the version configuration constants (photo-upload/app.py). -/
def THUMBNAIL_SIZE : Nat := 150
def STANDARD_SIZE : Nat := 320
def HIGH_RES_SIZE : Nat := 800
def THUMBNAIL_QUALITY : Nat := 80
def STANDARD_QUALITY : Nat := 85
def HIGH_RES_QUALITY : Nat := 90
def MAX_IMAGE_SIZE : Nat := 5242880

/-- The `version_configs` list from create_image_versions. -/
def versionConfigs : List (String × Nat × Nat) :=
  [("thumbnail", THUMBNAIL_SIZE, THUMBNAIL_QUALITY),
   ("standard", STANDARD_SIZE, STANDARD_QUALITY),
   ("high_res", HIGH_RES_SIZE, HIGH_RES_QUALITY)]

/-- One derived version buffer: its name, the crop box that produced it, the
encoded image's dimensions and the JPEG quality used. -/
structure VersionOut where
  name : String
  cropBox : Nat × Nat × Nat × Nat
  width : Nat
  height : Nat
  quality : Nat
  deriving Repr, DecidableEq

/-- `create_image_versions(image_data)`.  The input is the result of decoding
the raw bytes (`Image.open`): `none` models an unrecognized/corrupt image, in
which case the exception is wrapped into a `ValueError` ("Failed to process
image: ...").  Otherwise EXIF is stripped, the mode normalized, and for each
of the three configured versions a centered square is cropped and resized to
the version's target dimension. -/
def create_image_versions (decoded : Option PImage) : Except String (List VersionOut) :=
  match decoded with
  | none => .error "Failed to process image: cannot identify image file"
  | some img0 =>
    let image := normalizeMode (stripExif img0)
    .ok <| versionConfigs.map (fun cfg =>
      let name := cfg.1
      let size := cfg.2.1
      let quality := cfg.2.2
      let width := image.width
      let height := image.height
      let minDimension := min width height
      let left := (width - minDimension) / 2
      let top := (height - minDimension) / 2
      let right := left + minDimension
      let bottom := top + minDimension
      let cropped := cropImage image left top right bottom
      let resized := resizeImage cropped size size
      { name := name, cropBox := (left, top, right, bottom),
        width := resized.width, height := resized.height, quality := quality })

/-- Target square dimension of each derived version. -/
def targetDim (name : String) : Nat :=
  if name = "thumbnail" then THUMBNAIL_SIZE
  else if name = "standard" then STANDARD_SIZE
  else HIGH_RES_SIZE

/-! ### Optimized pre-upload cleanup (photo-upload/app.py,
delete_user_photos_optimized) -/

/-- One entry of `cleanup_result['deletion_errors']`. -/
structure DelError where
  key : String
  error : String
  error_code : String
  deriving Repr, DecidableEq

/-- `cleanup_result` as built by delete_user_photos_optimized. -/
structure CleanupResult where
  deleted_files : List String
  deletion_errors : List DelError
  files_scanned : Nat
  strategy : String
  deriving Repr, DecidableEq

/-- The `known_keys` list assembled from the user record: the two stored S3
keys, plus keys decoded out of the thumbnail/image URLs when those URLs embed
the S3 host (and the legacy URL differs from the thumbnail URL). -/
def knownKeysOf (u : User) : List String :=
  (if truthy u.standard_s3_key then [u.standard_s3_key.getD ""] else []) ++
  (if truthy u.high_res_s3_key then [u.high_res_s3_key.getD ""] else []) ++
  (if truthy u.thumbnail_url ∧ containsSub (u.thumbnail_url.getD "") "s3.amazonaws.com"
   then [extractKeyFromUrl (u.thumbnail_url.getD "")] else []) ++
  (if truthy u.image_url ∧ containsSub (u.image_url.getD "") "s3.amazonaws.com"
      ∧ u.image_url ≠ u.thumbnail_url
   then [extractKeyFromUrl (u.image_url.getD "")] else [])

/-- The individual-delete fallback loop run when the batch `delete_objects`
for the known keys raises: each non-empty key is retried with
`delete_object`; successes extend `deleted_files` and bump `files_scanned`,
failures are recorded in `deletion_errors`.  Returns
(deleted, errors, scanned, store, trace). -/
def fallbackDeleteLoop (w : S3World) :
    List String → List String × List DelError × Nat × S3World × List S3Call
  | [] => ([], [], 0, w, [])
  | k :: rest =>
    if k = "" then fallbackDeleteLoop w rest
    else if w.singleFails k then
      let p := fallbackDeleteLoop w rest
      (p.1, ⟨k, w.errMsg k, w.errCode k⟩ :: p.2.1, p.2.2.1, p.2.2.2.1,
       S3Call.deleteObject k :: p.2.2.2.2)
    else
      let p := fallbackDeleteLoop (afterSingleDelete w k) rest
      (k :: p.1, p.2.1, p.2.2.1 + 1, p.2.2.2.1, S3Call.deleteObject k :: p.2.2.2.2)

/-- The targeted phase of delete_user_photos_optimized: batch-delete the keys
known from the database, falling back to individual deletes when the batch
call raises. -/
def targetedDelete (u : User) (w : S3World) : CleanupResult × S3World × List S3Call :=
  let known_keys := knownKeysOf u
  let delete_objects := known_keys.filter (fun k => k ≠ "")
  if delete_objects.isEmpty then
    (⟨[], [], 0, "targeted"⟩, w, [])
  else if w.bulkFails delete_objects then
    -- ClientError from delete_objects: fall back to individual deletes.
    let p := fallbackDeleteLoop w known_keys
    (⟨p.1, p.2.1, p.2.2.1, "targeted"⟩, p.2.2.2.1,
     S3Call.deleteObjects delete_objects :: p.2.2.2.2)
  else
    (⟨bulkDeleted w delete_objects,
      (bulkErrored w delete_objects).map (fun k => ⟨k, w.errMsg k, w.errCode k⟩),
      delete_objects.length, "targeted"⟩,
     afterBulkDelete w delete_objects,
     [S3Call.deleteObjects delete_objects])

/-- The bounded orphan scan of delete_user_photos_optimized: list at most 100
objects under `users/{uid}/`, batch-delete the ones not already in
`deleted_files`.  Both a raising list call and a raising batch delete are
swallowed without recording anything. -/
def orphanScan (user_id : String) (r1 : CleanupResult) (w1 : S3World) :
    CleanupResult × S3World × List S3Call :=
  let user_pfx := "users/" ++ user_id ++ "/"
  if w1.listFails then
    (r1, w1, [S3Call.listObjects user_pfx (some 100)])
  else
    let listed := listUnder w1 user_pfx (some 100)
    let orphaned := listed.filter (fun k => !r1.deleted_files.contains k)
    if orphaned.isEmpty then
      (r1, w1, [S3Call.listObjects user_pfx (some 100)])
    else if w1.bulkFails orphaned then
      (r1, w1, [S3Call.listObjects user_pfx (some 100), S3Call.deleteObjects orphaned])
    else
      ({ r1 with
         deleted_files := r1.deleted_files ++ bulkDeleted w1 orphaned,
         deletion_errors := r1.deletion_errors ++ (bulkErrored w1 orphaned).map
           (fun k => ⟨k, w1.errMsg k, w1.errCode k⟩),
         files_scanned := r1.files_scanned + orphaned.length },
       afterBulkDelete w1 orphaned,
       [S3Call.listObjects user_pfx (some 100), S3Call.deleteObjects orphaned])

/-- `delete_user_photos_optimized(user, user_id, bucket_name)`.  Returns the
cleanup result together with the final store state and the trace of S3 calls
issued. -/
def delete_user_photos_optimized (user : Option User) (user_id bucket : String)
    (w : S3World) : CleanupResult × S3World × List S3Call :=
  let r0 : CleanupResult := ⟨[], [], 0, "none"⟩
  if bucket = "" then (r0, w, [])
  else
    let has_photos := match user with
      | some u => hasPhotos u
      | none => false
    if !has_photos then ({ r0 with strategy := "skip_no_photos" }, w, [])
    else
      match user with
      | none => ({ r0 with strategy := "skip_no_photos" }, w, [])
      | some u =>
        let p1 := targetedDelete u w
        let p2 := orphanScan user_id p1.1 p1.2.1
        (p2.1, p2.2.1, p1.2.2 ++ p2.2.2)

/-! ### Photo upload handler (photo-upload/app.py, lambda_handler) -/

/-- The request body of an upload, after transport decoding.  `raw` models
`isBase64Encoded = true` (the whole body is image bytes, no nickname);
`jsonBody` models the JSON branch, with the base64 image field already
decoded to bytes (`none` = no `image` field) and the optional nickname. -/
inductive UploadBody where
  | raw (bytes : List Nat)
  | jsonBody (image : Option (List Nat)) (nickname : Option String)
  deriving Repr, DecidableEq

/-- The slice of the API Gateway event the upload handler reads. -/
structure UploadEvent where
  tokenSub : String
  pathUserId : String
  body : Option UploadBody
  deriving Repr, DecidableEq

/-- Result of the upload handler: HTTP status, final user table and store
state, trace of store calls, the cleanup report (when reached) and the
per-version S3 keys minted for this upload. -/
structure UploadResult where
  status : Nat
  db : List User
  w : S3World
  calls : List S3Call
  cleanup : Option CleanupResult
  s3_keys : List (String × String)

/-- The upload loop over the three derived versions: mint the key
`users/{uid}/{version}_{timestamp}_{nonce}.jpg`, `put_object` the bytes, and
record the public thumbnail URL (static formula) or a presigned URL for the
other versions.  A `ClientError` from `put_object` aborts with the calls
issued so far (the handler then returns 500). -/
def uploadVersions (uid ts nonce bucket : String) (w : S3World) :
    List (String × Nat × Nat) →
    Except (S3World × List S3Call)
      (List (String × String) × List (String × String) × S3World × List S3Call)
  | [] => .ok ([], [], w, [])
  | cfg :: rest =>
    let version_name := cfg.1
    let filename := "users/" ++ uid ++ "/" ++ version_name ++ "_" ++ ts ++ "_" ++ nonce ++ ".jpg"
    if w.putFails filename then
      .error (w, [S3Call.putObject filename])
    else
      let w1 := afterPut w filename
      let url :=
        if version_name = "thumbnail" then
          "https://" ++ bucket ++ ".s3.amazonaws.com/" ++ filename
        else
          w1.presign filename
      let urlCalls : List S3Call :=
        if version_name = "thumbnail" then [] else [S3Call.presignUrl filename]
      match uploadVersions uid ts nonce bucket w1 rest with
      | .error (w', t) => .error (w', S3Call.putObject filename :: urlCalls ++ t)
      | .ok (keys, urls, w', t) =>
        .ok ((version_name, filename) :: keys,
             (version_name ++ "_url", url) :: urls,
             w', S3Call.putObject filename :: urlCalls ++ t)

/-- Association-list lookup, i.e. Python `dict.get` returning `None` when
absent. -/
def alistGet (l : List (String × String)) (k : String) : Option String :=
  (l.find? (fun p => p.1 == k)).map (fun p => p.2)

/-- `lambda_handler` of photo-upload (the slice relevant to the claims).
Parameters besides the event: the object store, the user table, the image
decoder (`Image.open`), the timestamp and the 8-char uuid nonce read during
the invocation, and the configured bucket name. -/
def uploadHandler (ev : UploadEvent) (db : List User) (w : S3World)
    (decode : List Nat → Option PImage) (ts nonce bucket : String) : UploadResult :=
  if ev.tokenSub ≠ ev.pathUserId then
    ⟨403, db, w, [], none, []⟩
  else
    match ev.body with
    | none => ⟨400, db, w, [], none, []⟩
    | some b =>
      let bytesOpt : Option (List Nat) := match b with
        | .raw bytes => some bytes
        | .jsonBody image _ => image
      let nickname : Option String := match b with
        | .raw _ => none
        | .jsonBody _ nick => nick
      match bytesOpt with
      | none => ⟨400, db, w, [], none, []⟩
      | some body =>
        if body.length > MAX_IMAGE_SIZE then
          ⟨400, db, w, [], none, []⟩
        else
          match create_image_versions (decode body) with
          | .error _ => ⟨400, db, w, [], none, []⟩
          | .ok _ =>
            match uploadVersions ev.pathUserId ts nonce bucket w versionConfigs with
            | .error (w1, t1) => ⟨500, db, w1, t1, none, []⟩
            | .ok (s3_keys, image_urls, w1, t1) =>
              match dbGet db ev.pathUserId with
              | some user =>
                let cl :=
                  delete_user_photos_optimized (some user) ev.pathUserId bucket w1
                let user' := { user with
                  thumbnail_url := alistGet image_urls "thumbnail_url",
                  standard_s3_key := alistGet s3_keys "standard",
                  high_res_s3_key := alistGet s3_keys "high_res",
                  image_url := alistGet image_urls "thumbnail_url" }
                ⟨200, dbSave db user', cl.2.1, t1 ++ cl.2.2, some cl.1, s3_keys⟩
              | none =>
                match nickname with
                | none =>
                  -- "User not found. Please provide a nickname for first-time upload."
                  ⟨400, db, w1, t1, none, s3_keys⟩
                | some nick =>
                  match dbGetByNickname db nick with
                  | some _ => ⟨409, db, w1, t1, none, s3_keys⟩
                  | none =>
                    let cl :=
                      delete_user_photos_optimized none ev.pathUserId bucket w1
                    let user' : User := {
                      cognito_id := ev.pathUserId,
                      nickname := nick,
                      thumbnail_url := alistGet image_urls "thumbnail_url",
                      standard_s3_key := alistGet s3_keys "standard",
                      high_res_s3_key := alistGet s3_keys "high_res",
                      image_url := alistGet image_urls "thumbnail_url" }
                    ⟨200, dbSave db user', cl.2.1, t1 ++ cl.2.2, some cl.1, s3_keys⟩

/-- Number of `put_object` calls in a trace. -/
def putCount (t : List S3Call) : Nat :=
  t.countP (fun c => match c with
    | S3Call.putObject _ => true
    | _ => false)

/-- Whether a trace contains some multi-object delete call. -/
def hasBulkDelete (t : List S3Call) : Bool :=
  t.any (fun c => match c with
    | S3Call.deleteObjects _ => true
    | _ => false)

/-! ### Batch user deletion (batch-delete/app.py) -/

/-- Python `range(0, len(l), n)` slicing, fuelled for kernel reduction: the
fuel is the list length, and each step drops at least one element when
`n ≥ 1`, so the fuel never runs out in `chunksOf`. -/
def chunksOfGo (n : Nat) : Nat → List α → List (List α)
  | _, [] => []
  | 0, l => [l]
  | fuel + 1, x :: xs => (x :: xs.take (n - 1)) :: chunksOfGo n fuel (xs.drop (n - 1))

/-- Split a list into consecutive chunks of at most `n` elements (`n ≥ 1`). -/
def chunksOf (n : Nat) (l : List α) : List (List α) :=
  chunksOfGo n l.length l

/-- The individual-delete fallback of batch-delete's delete_user_photos: run
when the batch `delete_objects` raises; failures are only logged.  Returns
(deleted, store, trace). -/
def batchFallbackLoop (w : S3World) :
    List String → List String × S3World × List S3Call
  | [] => ([], w, [])
  | k :: rest =>
    if w.singleFails k then
      let p := batchFallbackLoop w rest
      (p.1, p.2.1, S3Call.deleteObject k :: p.2.2)
    else
      let p := batchFallbackLoop (afterSingleDelete w k) rest
      (k :: p.1, p.2.1, S3Call.deleteObject k :: p.2.2)

/-- One 1000-key batch of delete_user_photos: try the multi-object delete;
on ClientError fall back to individual deletes; keys the store reports under
`Errors` are only logged.  Returns (deleted, store, trace). -/
def deleteBatch (w : S3World) (batch : List String) :
    List String × S3World × List S3Call :=
  if w.bulkFails batch then
    let p := batchFallbackLoop w batch
    (p.1, p.2.1, S3Call.deleteObjects batch :: p.2.2)
  else
    (bulkDeleted w batch, afterBulkDelete w batch, [S3Call.deleteObjects batch])

/-- The loop over the 1000-key chunks. -/
def deleteBatches (w : S3World) : List (List String) → List String × S3World × List S3Call
  | [] => ([], w, [])
  | b :: rest =>
    let p := deleteBatch w b
    let q := deleteBatches p.2.1 rest
    (p.1 ++ q.1, q.2.1, p.2.2 ++ q.2.2)

/-- `delete_user_photos(user_id)` from batch-delete: list the whole
`users/{uid}/` namespace (paginated), batch-delete it in chunks of 1000 with
individual-delete fallback, and return the deleted keys.  Any exception —
including a raising `list_objects_v2` (total store unavailability) — is
caught and turned into an empty result. -/
def delete_user_photos (user_id _bucket : String) (w : S3World) :
    List String × S3World × List S3Call :=
  let user_pfx := "users/" ++ user_id ++ "/"
  if w.listFails then
    -- The paginator raised; the outer catch-all returns [].
    ([], w, [S3Call.listObjects user_pfx none])
  else
    let all_objects := listUnder w user_pfx none
    if all_objects.isEmpty then
      ([], w, [S3Call.listObjects user_pfx none])
    else
      let p := deleteBatches w (chunksOf 1000 all_objects)
      (p.1, p.2.1, S3Call.listObjects user_pfx none :: p.2.2)

/-- An entry of `valid_users` produced by validate_batch_users. -/
structure ValidUser where
  user_id : String
  has_photos : Bool
  deriving Repr, DecidableEq

/-- A per-owner error outcome (validation- or execution-stage). -/
structure BatchErr where
  user_id : String
  error_code : String
  deriving Repr, DecidableEq

/-- `validate_batch_users(user_ids, requesting_user_id, test_mode)`: partition
the (deduplicated) ids into valid users and per-owner errors.  An absent
record yields USER_NOT_FOUND; an identity mismatch outside test mode yields
UNAUTHORIZED_DELETION. -/
def validate_batch_users (db : List User) (requesting_user_id : String)
    (test_mode : Bool) : List String → List ValidUser × List BatchErr
  | [] => ([], [])
  | user_id :: rest =>
    let p := validate_batch_users db requesting_user_id test_mode rest
    let v := p.1
    let e := p.2
    match dbGet db user_id with
    | none => (v, ⟨user_id, "USER_NOT_FOUND"⟩ :: e)
    | some u =>
      if !test_mode ∧ user_id ≠ requesting_user_id then
        (v, ⟨user_id, "UNAUTHORIZED_DELETION"⟩ :: e)
      else
        (⟨user_id, hasPhotos u⟩ :: v, e)

/-- Result dict of delete_single_user_with_timeout. -/
structure TaskResult where
  success : Bool
  error_code : String
  photos_deleted : Nat
  deriving Repr, DecidableEq

/-- `delete_single_user_with_timeout(user_data, reason, context)`.  `ctx`
models `context.get_remaining_time_in_millis()` (`none` = no context object,
in which case the guard is skipped).  Returns the task result plus the
updated user table, store and S3 trace. -/
def delete_single_user_with_timeout (user_data : ValidUser) (bucket : String)
    (ctx : Option Nat) (db : List User) (w : S3World) :
    TaskResult × List User × S3World × List S3Call :=
  match ctx with
  | some remaining =>
    if remaining < 5000 then
      (⟨false, "TIMEOUT_RISK", 0⟩, db, w, [])
    else
      deleteSingleCore user_data bucket db w
  | none => deleteSingleCore user_data bucket db w
where
  /-- The body after the timeout guard: S3 cleanup (only with a configured
  bucket and a has_photos owner), then record fetch and deletion. -/
  deleteSingleCore (user_data : ValidUser) (bucket : String) (db : List User)
      (w : S3World) : TaskResult × List User × S3World × List S3Call :=
    let p :=
      if bucket ≠ "" ∧ user_data.has_photos then
        delete_user_photos user_data.user_id bucket w
      else
        ([], w, [])
    match dbGet db user_data.user_id with
    | none => (⟨false, "USER_NOT_FOUND", 0⟩, db, p.2.1, p.2.2)
    | some _ =>
      (⟨true, "", p.1.length⟩, dbDelete db user_data.user_id, p.2.1, p.2.2)

/-- A successful per-owner deletion outcome. -/
structure DelOutcome where
  user_id : String
  photos_deleted : Nat
  deriving Repr, DecidableEq

/-- Aggregate result of process_batch_deletions. -/
structure ProcessResult where
  successful_deletions : List DelOutcome
  errors : List BatchErr
  successful_count : Nat
  total_photos_deleted : Nat
  db : List User
  w : S3World
  calls : List S3Call

/-- `process_batch_deletions(valid_users, reason, context)`: one deletion
task per validated owner.  The bounded thread pool is linearised to a fold in
submission order (tasks operate on disjoint owners, and the claims proved
about this function are order-insensitive). -/
def process_batch_deletions (bucket : String) (ctx : Option Nat)
    (db : List User) (w : S3World) : List ValidUser → ProcessResult
  | [] => ⟨[], [], 0, 0, db, w, []⟩
  | ud :: rest =>
    let p := delete_single_user_with_timeout ud bucket ctx db w
    let res := p.1
    let r := process_batch_deletions bucket ctx p.2.1 p.2.2.1 rest
    if res.success then
      { r with
        successful_deletions := ⟨ud.user_id, res.photos_deleted⟩ :: r.successful_deletions,
        successful_count := r.successful_count + 1,
        total_photos_deleted := res.photos_deleted + r.total_photos_deleted,
        calls := p.2.2.2 ++ r.calls }
    else
      { r with
        errors := ⟨ud.user_id, res.error_code⟩ :: r.errors,
        calls := p.2.2.2 ++ r.calls }

/-- Fuelled worker for `dedupFirst` (fuel = list length; filtering only
shortens the tail, so the fuel never runs out). -/
def dedupFirstGo : Nat → List String → List String
  | _, [] => []
  | 0, l => l
  | fuel + 1, x :: xs => x :: dedupFirstGo fuel (xs.filter (fun y => y ≠ x))

/-- `list(dict.fromkeys(user_ids))`: drop duplicates, keeping the first
occurrence of each id in order. -/
def dedupFirst (l : List String) : List String :=
  dedupFirstGo l.length l

/-- Parsed JSON body of the batch-deletion request (`none` for an absent or
unparseable body handled by the caller; a non-list `user_ids` is out of scope
of the typed embedding). -/
structure BatchBody where
  user_ids : List String
  test_mode : Bool := false
  confirm : Bool := false
  deriving Repr, DecidableEq

/-- Response of handle_batch_deletion (the fields the claims mention). -/
structure BatchResponse where
  status : Nat
  requested_count : Nat
  successful_count : Nat
  failed_count : Nat
  successful_deletions : List DelOutcome
  errors : List BatchErr
  db : List User
  calls : List S3Call

/-- `handle_batch_deletion(event, context)` after authentication: request
shape validation, dedup, confirmation check, per-owner validation, concurrent
execution and the three-way status policy (200 all / 207 partial / 400 none). -/
def handle_batch_deletion (requesting_user_id : String) (body : Option BatchBody)
    (bucket : String) (ctx : Option Nat) (db : List User) (w : S3World) :
    BatchResponse :=
  match body with
  | none => ⟨400, 0, 0, 0, [], [], db, []⟩
  | some b =>
    if b.user_ids.isEmpty then ⟨400, 0, 0, 0, [], [], db, []⟩
    else if b.user_ids.length > 50 then ⟨400, 0, 0, 0, [], [], db, []⟩
    else
      let unique_user_ids := dedupFirst b.user_ids
      if !b.confirm then ⟨400, unique_user_ids.length, 0, 0, [], [], db, []⟩
      else
        let vp := validate_batch_users db requesting_user_id b.test_mode unique_user_ids
        let valid_users := vp.1
        let verrs := vp.2
        if valid_users.isEmpty then
          ⟨400, unique_user_ids.length, 0, verrs.length, [], verrs, db, []⟩
        else
          let r := process_batch_deletions bucket ctx db w valid_users
          let all_errors := verrs ++ r.errors
          let status :=
            if r.successful_count = unique_user_ids.length then 200
            else if r.successful_count > 0 then 207
            else 400
          ⟨status, unique_user_ids.length, r.successful_count, all_errors.length,
           r.successful_deletions, all_errors, r.db, r.calls⟩

/-! ### Photo delete handler (photo-delete/app.py, lambda_handler) -/

/-- Result of the photo-delete handler. -/
structure PhotoDeleteResult where
  status : Nat
  db : List User
  w : S3World
  deleted_files : List String
  deletion_errors : List DelError
  calls : List S3Call

/-- The per-object delete loop over a listing page: each key is deleted with
`delete_object`; a ClientError is recorded under `deletion_errors`. -/
def photoDeleteLoop (w : S3World) :
    List String → List String × List DelError × S3World × List S3Call
  | [] => ([], [], w, [])
  | k :: rest =>
    if w.singleFails k then
      let p := photoDeleteLoop w rest
      (p.1, ⟨k, w.errMsg k, w.errCode k⟩ :: p.2.1, p.2.2.1, S3Call.deleteObject k :: p.2.2.2)
    else
      let p := photoDeleteLoop (afterSingleDelete w k) rest
      (k :: p.1, p.2.1, p.2.2.1, S3Call.deleteObject k :: p.2.2.2)

/-- `lambda_handler` of photo-delete: authorization, record lookup, the
no-photos fast path, best-effort deletion of every object under the owner's
namespace, then the unconditional clearing of all four photo fields.  The
listing is modelled as a single untruncated page, so the pagination loop
does not fire. -/
def photoDeleteHandler (tokenSub : String) (targetUserId : Option String)
    (bucket : String) (db : List User) (w : S3World) : PhotoDeleteResult :=
  match targetUserId with
  | none => ⟨400, db, w, [], [], []⟩
  | some target =>
    if target ≠ tokenSub then ⟨403, db, w, [], [], []⟩
    else
      match dbGet db target with
      | none => ⟨404, db, w, [], [], []⟩
      | some user =>
        if !hasPhotos user then
          ⟨200, db, w, [], [], []⟩
        else
          let user_pfx := "users/" ++ target ++ "/"
          let p :=
            if bucket = "" then ([], [], w, [])
            else if w.listFails then
              -- "Error listing S3 objects": continue to clear the record.
              ([], [], w, [S3Call.listObjects user_pfx none])
            else
              let q := photoDeleteLoop w (listUnder w user_pfx none)
              (q.1, q.2.1, q.2.2.1, S3Call.listObjects user_pfx none :: q.2.2.2)
          let user' := { user with
            thumbnail_url := none, standard_s3_key := none,
            high_res_s3_key := none, image_url := none }
          ⟨200, dbSave db user', p.2.2.1, p.1, p.2.1, p.2.2.2⟩

/-! ## Theorems -/

lemma stripExif_width (img : PImage) : (stripExif img).width = img.width := by
  unfold stripExif; split <;> rfl

lemma stripExif_height (img : PImage) : (stripExif img).height = img.height := by
  unfold stripExif; split <;> rfl

lemma normalizeMode_width (img : PImage) : (normalizeMode img).width = img.width := by
  unfold normalizeMode
  split
  · rfl
  · split <;> rfl

lemma normalizeMode_height (img : PImage) : (normalizeMode img).height = img.height := by
  unfold normalizeMode
  split
  · rfl
  · split <;> rfl

/-- **C8**: for every valid raster input, `derive` (create_image_versions)
produces exactly 3 buffers — thumbnail, standard, high_res — each a square
image whose width and height equal that version's fixed target dimension,
each obtained by cropping the largest centered square
(side = min(width, height), offsets ((width-side)/2, (height-side)/2)) and
resizing to the target dimension. -/
theorem c8_derive_three_square_versions (img : PImage) :
    ∃ vs, create_image_versions (some img) = Except.ok vs ∧
      vs.length = 3 ∧
      vs.map (fun v => v.name) = ["thumbnail", "standard", "high_res"] ∧
      vs.map (fun v => (v.width, v.height)) =
        [(THUMBNAIL_SIZE, THUMBNAIL_SIZE), (STANDARD_SIZE, STANDARD_SIZE),
         (HIGH_RES_SIZE, HIGH_RES_SIZE)] ∧
      vs.map (fun v => v.cropBox) =
        [((img.width - min img.width img.height) / 2,
          (img.height - min img.width img.height) / 2,
          (img.width - min img.width img.height) / 2 + min img.width img.height,
          (img.height - min img.width img.height) / 2 + min img.width img.height),
         ((img.width - min img.width img.height) / 2,
          (img.height - min img.width img.height) / 2,
          (img.width - min img.width img.height) / 2 + min img.width img.height,
          (img.height - min img.width img.height) / 2 + min img.width img.height),
         ((img.width - min img.width img.height) / 2,
          (img.height - min img.width img.height) / 2,
          (img.width - min img.width img.height) / 2 + min img.width img.height,
          (img.height - min img.width img.height) / 2 + min img.width img.height)] := by
  refine ⟨_, rfl, rfl, rfl, rfl, ?_⟩
  simp only [create_image_versions, versionConfigs, List.map_cons, List.map_nil,
    cropImage, normalizeMode_width, normalizeMode_height, stripExif_width,
    stripExif_height]

/-- **C6**: if the deadline source reports less than 5000 ms remaining when a
deletion task is about to start, the task reports a TIMEOUT_RISK error for
that owner and issues zero object-store calls, leaving the store and the
user table untouched. -/
theorem c6_timeout_guard (ud : ValidUser) (bucket : String) (r : Nat)
    (db : List User) (w : S3World) (h : r < 5000) :
    delete_single_user_with_timeout ud bucket (some r) db w =
      (⟨false, "TIMEOUT_RISK", 0⟩, db, w, []) := by
  unfold delete_single_user_with_timeout
  simp [h]

theorem c6_timeout_guard_witness :
    (0 : Nat) < 5000 ∧
      delete_single_user_with_timeout ⟨"u", true⟩ "bucket" (some 0) []
          ({ objects := ["users/u/a.jpg"] } : S3World) =
        (⟨false, "TIMEOUT_RISK", 0⟩, [], ({ objects := ["users/u/a.jpg"] } : S3World), []) :=
  ⟨by decide, c6_timeout_guard ⟨"u", true⟩ "bucket" 0 []
    { objects := ["users/u/a.jpg"] } (by decide)⟩

/-- **C10**: in the batch orchestrator a per-owner photo-cleanup failure
never produces an error outcome: `delete_user_photos` returns an empty list
when the store listing raises (total unavailability), and the deletion task
then reports the owner as a success with `photos_deleted = 0` once the
record deletion goes through. -/
theorem c10_cleanup_failure_never_an_error :
    (∀ uid bucket w, w.listFails = true →
        (delete_user_photos uid bucket w).1 = []) ∧
    (∀ (ud : ValidUser) (bucket : String) (db : List User) (w : S3World) (u : User),
        w.listFails = true → dbGet db ud.user_id = some u →
        (delete_single_user_with_timeout ud bucket none db w).1 =
          ⟨true, "", 0⟩) := by
  have h1 : ∀ (uid bucket : String) (w : S3World), w.listFails = true →
      (delete_user_photos uid bucket w).1 = [] := by
    intro uid bucket w h
    unfold delete_user_photos
    simp [h]
  refine ⟨h1, ?_⟩
  intro ud bucket db w u hl hget
  unfold delete_single_user_with_timeout delete_single_user_with_timeout.deleteSingleCore
  by_cases hb : bucket ≠ "" ∧ ud.has_photos
  · have := h1 ud.user_id bucket w hl
    rcases hdel : delete_user_photos ud.user_id bucket w with ⟨d, w', t⟩
    simp only [hdel] at this
    simp [hb, hdel, hget, this]
  · simp [hb, hget]

theorem c10_witness :
    let w : S3World := { objects := [], listFails := true }
    let db : List User := [{ cognito_id := "u", nickname := "n",
                             image_url := some "x" }]
    w.listFails = true ∧
      (delete_user_photos "u" "bucket" w).1 = [] ∧
      dbGet db "u" = some { cognito_id := "u", nickname := "n", image_url := some "x" } ∧
      (delete_single_user_with_timeout ⟨"u", true⟩ "bucket" none db w).1 = ⟨true, "", 0⟩ :=
  ⟨rfl,
   c10_cleanup_failure_never_an_error.1 "u" "bucket" _ rfl,
   by decide,
   c10_cleanup_failure_never_an_error.2 ⟨"u", true⟩ "bucket" _ _
     { cognito_id := "u", nickname := "n", image_url := some "x" } rfl (by decide)⟩

/-- **C9**: a DeleteAsset call by the owner on an existing record with at
least one populated photo field clears all four photo fields (to empty) in
the saved record and returns 200 — for every store state, including a
raising listing call and stores where every individual delete fails. -/
theorem c9_record_clear_unconditional (uid bucket : String) (u : User)
    (db : List User) (w : S3World)
    (hget : dbGet db uid = some u) (hp : hasPhotos u = true) :
    (photoDeleteHandler uid (some uid) bucket db w).status = 200 ∧
    (photoDeleteHandler uid (some uid) bucket db w).db =
      dbSave db { u with thumbnail_url := none, standard_s3_key := none,
                         high_res_s3_key := none, image_url := none } := by
  unfold photoDeleteHandler
  simp [hget, hp]

theorem c9_witness :
    let u : User := { cognito_id := "u", nickname := "n",
                      thumbnail_url := some "https://b.s3.amazonaws.com/users/u/a.jpg" }
    let db : List User := [u]
    let w : S3World := { objects := ["users/u/a.jpg"], listFails := true,
                         singleFails := fun _ => true }
    dbGet db "u" = some u ∧ hasPhotos u = true ∧
      ((photoDeleteHandler "u" (some "u") "b" db w).status = 200 ∧
       (photoDeleteHandler "u" (some "u") "b" db w).db =
         dbSave db { u with thumbnail_url := none, standard_s3_key := none,
                            high_res_s3_key := none, image_url := none }) :=
  ⟨by decide, by decide,
   c9_record_clear_unconditional "u" "b" _ _ _ (by decide) (by decide)⟩

/-! ### Deduplication and outcome-partition lemmas (C5) -/

lemma mem_of_mem_dedupFirstGo :
    ∀ (fuel : Nat) (l : List String) (y : String), y ∈ dedupFirstGo fuel l → y ∈ l := by
  intro fuel
  induction fuel with
  | zero =>
    intro l y h
    cases l with
    | nil => simp [dedupFirstGo] at h
    | cons x xs => simpa [dedupFirstGo] using h
  | succ fuel ih =>
    intro l y h
    cases l with
    | nil => simp [dedupFirstGo] at h
    | cons x xs =>
      simp only [dedupFirstGo, List.mem_cons] at h
      rcases h with h | h
      · exact h ▸ List.mem_cons_self x xs
      · exact List.mem_cons_of_mem x (List.mem_of_mem_filter (ih _ y h))

lemma mem_dedupFirstGo_of_mem :
    ∀ (fuel : Nat) (l : List String), l.length ≤ fuel →
      ∀ y : String, y ∈ l → y ∈ dedupFirstGo fuel l := by
  intro fuel
  induction fuel with
  | zero =>
    intro l hl y h
    cases l with
    | nil => simp at h
    | cons x xs => simp at hl
  | succ fuel ih =>
    intro l hl y h
    cases l with
    | nil => simp at h
    | cons x xs =>
      by_cases hyx : y = x
      · simp [dedupFirstGo, hyx]
      · rcases List.mem_cons.1 h with h' | h'
        · exact absurd h' hyx
        · have hmem : y ∈ xs.filter (fun z => z ≠ x) := by
            simp [List.mem_filter, h', hyx]
          have hlen : (xs.filter (fun z => z ≠ x)).length ≤ fuel := by
            have := List.length_filter_le (fun z => z ≠ x) xs
            simp only [List.length_cons] at hl
            omega
          simp only [dedupFirstGo, List.mem_cons]
          exact Or.inr (ih _ hlen y hmem)

lemma dedupFirstGo_nodup :
    ∀ (fuel : Nat) (l : List String), l.length ≤ fuel → (dedupFirstGo fuel l).Nodup := by
  intro fuel
  induction fuel with
  | zero =>
    intro l hl
    cases l with
    | nil => simp [dedupFirstGo]
    | cons x xs => simp at hl
  | succ fuel ih =>
    intro l hl
    cases l with
    | nil => simp [dedupFirstGo]
    | cons x xs =>
      have hlen : (xs.filter (fun z => z ≠ x)).length ≤ fuel := by
        have := List.length_filter_le (fun z => z ≠ x) xs
        simp only [List.length_cons] at hl
        omega
      simp only [dedupFirstGo, List.nodup_cons]
      refine ⟨fun hmem => ?_, ih _ hlen⟩
      have := mem_of_mem_dedupFirstGo fuel _ x hmem
      simp [List.mem_filter] at this

lemma dedupFirstGo_sublist :
    ∀ (fuel : Nat) (l : List String), l.length ≤ fuel → List.Sublist (dedupFirstGo fuel l) l := by
  intro fuel
  induction fuel with
  | zero =>
    intro l hl
    cases l with
    | nil => simp [dedupFirstGo]
    | cons x xs => simp at hl
  | succ fuel ih =>
    intro l hl
    cases l with
    | nil => simp [dedupFirstGo]
    | cons x xs =>
      have hlen : (xs.filter (fun z => z ≠ x)).length ≤ fuel := by
        have := List.length_filter_le (fun z => z ≠ x) xs
        simp only [List.length_cons] at hl
        omega
      simp only [dedupFirstGo]
      exact List.Sublist.cons₂ x ((ih _ hlen).trans (List.filter_sublist xs))

lemma validate_counts (db : List User) (req : String) (tm : Bool) :
    ∀ (ids : List String) (x : String),
      ((validate_batch_users db req tm ids).1.map ValidUser.user_id).count x +
      ((validate_batch_users db req tm ids).2.map BatchErr.user_id).count x
        = ids.count x := by
  intro ids
  induction ids with
  | nil => intro x; simp [validate_batch_users]
  | cons id rest ih =>
    intro x
    have h := ih x
    cases hg : dbGet db id with
    | none =>
      simp only [validate_batch_users, hg, List.map_cons, List.count_cons]
      omega
    | some u =>
      by_cases hc : !tm ∧ id ≠ req
      · simp only [validate_batch_users, hg, if_pos hc, List.map_cons, List.count_cons]
        omega
      · simp only [validate_batch_users, hg, if_neg hc, List.map_cons, List.count_cons]
        omega

lemma process_counts (bucket : String) (ctx : Option Nat) :
    ∀ (vus : List ValidUser) (db : List User) (w : S3World) (x : String),
      ((process_batch_deletions bucket ctx db w vus).successful_deletions.map
        DelOutcome.user_id).count x +
      ((process_batch_deletions bucket ctx db w vus).errors.map BatchErr.user_id).count x
        = (vus.map ValidUser.user_id).count x := by
  intro vus
  induction vus with
  | nil => intros; simp [process_batch_deletions]
  | cons ud rest ih =>
    intro db w x
    by_cases hs : (delete_single_user_with_timeout ud bucket ctx db w).1.success
    · simp only [process_batch_deletions, if_pos hs, List.map_cons, List.count_cons]
      have := ih (delete_single_user_with_timeout ud bucket ctx db w).2.1
        (delete_single_user_with_timeout ud bucket ctx db w).2.2.1 x
      omega
    · simp only [process_batch_deletions, if_neg hs, List.map_cons, List.count_cons]
      have := ih (delete_single_user_with_timeout ud bucket ctx db w).2.1
        (delete_single_user_with_timeout ud bucket ctx db w).2.2.1 x
      omega

/-- **C5**: duplicate owner ids are collapsed to one occurrence preserving
first-seen order (the dedup result is duplicate-free, is a sublist of the
request, hence in first-seen order, and keeps exactly the requested ids),
and every post-dedup owner id lands in exactly one of the valid/error
partitions at validation and in exactly one outcome (success or error) after
execution: the outcome multiset equals the input multiset at every stage. -/
theorem c5_dedup_and_outcome_partition :
    (∀ ids : List String, (dedupFirst ids).Nodup ∧ List.Sublist (dedupFirst ids) ids ∧
        ∀ x, x ∈ dedupFirst ids ↔ x ∈ ids) ∧
    (∀ (db : List User) (req : String) (tm : Bool) (ids : List String) (x : String),
        ((validate_batch_users db req tm ids).1.map ValidUser.user_id).count x +
        ((validate_batch_users db req tm ids).2.map BatchErr.user_id).count x
          = ids.count x) ∧
    (∀ (bucket : String) (ctx : Option Nat) (vus : List ValidUser) (db : List User)
        (w : S3World) (x : String),
        ((process_batch_deletions bucket ctx db w vus).successful_deletions.map
          DelOutcome.user_id).count x +
        ((process_batch_deletions bucket ctx db w vus).errors.map BatchErr.user_id).count x
          = (vus.map ValidUser.user_id).count x) := by
  refine ⟨fun ids => ⟨?_, ?_, fun x => ⟨?_, ?_⟩⟩, validate_counts, process_counts⟩
  · exact dedupFirstGo_nodup ids.length ids le_rfl
  · exact dedupFirstGo_sublist ids.length ids le_rfl
  · exact mem_of_mem_dedupFirstGo ids.length ids x
  · exact mem_dedupFirstGo_of_mem ids.length ids le_rfl x

/-! ### Status-policy lemmas (C3) -/

lemma validate_lengths (db : List User) (req : String) (tm : Bool) :
    ∀ ids : List String,
      (validate_batch_users db req tm ids).1.length +
      (validate_batch_users db req tm ids).2.length = ids.length := by
  intro ids
  induction ids with
  | nil => simp [validate_batch_users]
  | cons id rest ih =>
    cases hg : dbGet db id with
    | none =>
      simp only [validate_batch_users, hg, List.length_cons]
      omega
    | some u =>
      by_cases hc : !tm ∧ id ≠ req
      · simp only [validate_batch_users, hg, if_pos hc, List.length_cons]
        omega
      · simp only [validate_batch_users, hg, if_neg hc, List.length_cons]
        omega

lemma process_lengths (bucket : String) (ctx : Option Nat) :
    ∀ (vus : List ValidUser) (db : List User) (w : S3World),
      (process_batch_deletions bucket ctx db w vus).successful_deletions.length +
      (process_batch_deletions bucket ctx db w vus).errors.length = vus.length := by
  intro vus
  induction vus with
  | nil => intros; simp [process_batch_deletions]
  | cons ud rest ih =>
    intro db w
    have h := ih (delete_single_user_with_timeout ud bucket ctx db w).2.1
      (delete_single_user_with_timeout ud bucket ctx db w).2.2.1
    by_cases hs : (delete_single_user_with_timeout ud bucket ctx db w).1.success
    · simp only [process_batch_deletions, if_pos hs, List.length_cons]
      omega
    · simp only [process_batch_deletions, if_neg hs, List.length_cons]
      omega

lemma process_successful_count (bucket : String) (ctx : Option Nat) :
    ∀ (vus : List ValidUser) (db : List User) (w : S3World),
      (process_batch_deletions bucket ctx db w vus).successful_count =
      (process_batch_deletions bucket ctx db w vus).successful_deletions.length := by
  intro vus
  induction vus with
  | nil => intros; simp [process_batch_deletions]
  | cons ud rest ih =>
    intro db w
    have h := ih (delete_single_user_with_timeout ud bucket ctx db w).2.1
      (delete_single_user_with_timeout ud bucket ctx db w).2.2.1
    by_cases hs : (delete_single_user_with_timeout ud bucket ctx db w).1.success
    · simp only [process_batch_deletions, if_pos hs, List.length_cons]
      omega
    · simp only [process_batch_deletions, if_neg hs]
      exact h

/-- **C3**: for every batch deletion request that passes request-shape
validation (non-empty list of at most 50 ids, confirmation set) and has at
least one valid owner, the response status is 200 exactly when the
successful-deletion count equals the number of deduplicated requested
owners, 207 exactly when at least one but not all of them succeeded, and
400 exactly when none succeeded. -/
theorem c3_three_way_status_policy (req : String) (b : BatchBody) (bucket : String)
    (ctx : Option Nat) (db : List User) (w : S3World)
    (hne : b.user_ids ≠ []) (hlen : b.user_ids.length ≤ 50) (hc : b.confirm = true)
    (hval : (validate_batch_users db req b.test_mode (dedupFirst b.user_ids)).1 ≠ []) :
    ((handle_batch_deletion req (some b) bucket ctx db w).status = 200 ↔
      (handle_batch_deletion req (some b) bucket ctx db w).successful_count
        = (dedupFirst b.user_ids).length) ∧
    ((handle_batch_deletion req (some b) bucket ctx db w).status = 207 ↔
      (0 < (handle_batch_deletion req (some b) bucket ctx db w).successful_count ∧
       (handle_batch_deletion req (some b) bucket ctx db w).successful_count
         < (dedupFirst b.user_ids).length)) ∧
    ((handle_batch_deletion req (some b) bucket ctx db w).status = 400 ↔
      (handle_batch_deletion req (some b) bucket ctx db w).successful_count = 0) := by
  have hie : b.user_ids.isEmpty = false := by
    cases hu : b.user_ids with
    | nil => exact absurd hu hne
    | cons a l => rfl
  have hgt : ¬(b.user_ids.length > 50) := by omega
  have hvie : (validate_batch_users db req b.test_mode (dedupFirst b.user_ids)).1.isEmpty
      = false := by
    cases hu : (validate_batch_users db req b.test_mode (dedupFirst b.user_ids)).1 with
    | nil => exact absurd hu hval
    | cons a l => rfl
  have hvpos : 0 < (validate_batch_users db req b.test_mode (dedupFirst b.user_ids)).1.length := by
    cases hu : (validate_batch_users db req b.test_mode (dedupFirst b.user_ids)).1 with
    | nil => exact absurd hu hval
    | cons a l => simp
  have hsucc := process_successful_count bucket ctx
    (validate_batch_users db req b.test_mode (dedupFirst b.user_ids)).1 db w
  have hplen := process_lengths bucket ctx
    (validate_batch_users db req b.test_mode (dedupFirst b.user_ids)).1 db w
  have hvlen := validate_lengths db req b.test_mode (dedupFirst b.user_ids)
  -- successful_count is bounded by the number of deduplicated owners,
  -- which is positive.
  have hle : (process_batch_deletions bucket ctx db w
      (validate_batch_users db req b.test_mode (dedupFirst b.user_ids)).1).successful_count
        ≤ (dedupFirst b.user_ids).length := by omega
  have hnpos : 0 < (dedupFirst b.user_ids).length := by omega
  unfold handle_batch_deletion
  simp only [hie, hgt, hc, Bool.not_true, Bool.false_eq_true, if_false, hvie,
    ite_false, ite_true, if_true]
  set s := (process_batch_deletions bucket ctx db w
    (validate_batch_users db req b.test_mode (dedupFirst b.user_ids)).1).successful_count
    with hs
  by_cases h200 : s = (dedupFirst b.user_ids).length
  · simp only [h200, if_pos rfl, if_true]
    refine ⟨by simp, ?_, ?_⟩
    · constructor
      · intro h; omega
      · intro h; exact absurd h.2 (lt_irrefl _)
    · constructor
      · intro h; omega
      · intro h; exact absurd h (Nat.pos_iff_ne_zero.mp hnpos)
  · rw [if_neg h200]
    by_cases hpos : s > 0
    · rw [if_pos hpos]
      refine ⟨?_, ?_, ?_⟩
      · constructor
        · intro h; omega
        · intro h; exact absurd h h200
      · constructor
        · intro _; omega
        · intro _; rfl
      · constructor
        · intro h; omega
        · intro h; omega
    · rw [if_neg hpos]
      refine ⟨?_, ?_, ?_⟩
      · constructor
        · intro h; omega
        · intro h; exact absurd h h200
      · constructor
        · intro h; omega
        · intro h; omega
      · constructor
        · intro _; omega
        · intro _; rfl

theorem c3_witness :
    let b : BatchBody := { user_ids := ["u"], confirm := true }
    let db : List User := [{ cognito_id := "u", nickname := "n" }]
    let w : S3World := { objects := [] }
    (b.user_ids ≠ [] ∧ b.user_ids.length ≤ 50 ∧ b.confirm = true ∧
      (validate_batch_users db "u" b.test_mode (dedupFirst b.user_ids)).1 ≠ []) ∧
    (((handle_batch_deletion "u" (some b) "" none db w).status = 200 ↔
       (handle_batch_deletion "u" (some b) "" none db w).successful_count
         = (dedupFirst b.user_ids).length) ∧
     ((handle_batch_deletion "u" (some b) "" none db w).status = 207 ↔
       (0 < (handle_batch_deletion "u" (some b) "" none db w).successful_count ∧
        (handle_batch_deletion "u" (some b) "" none db w).successful_count
          < (dedupFirst b.user_ids).length)) ∧
     ((handle_batch_deletion "u" (some b) "" none db w).status = 400 ↔
       (handle_batch_deletion "u" (some b) "" none db w).successful_count = 0)) :=
  ⟨⟨by decide, by decide, by decide, by decide⟩,
   c3_three_way_status_policy "u" { user_ids := ["u"], confirm := true } "" none
     [{ cognito_id := "u", nickname := "n" }] { objects := [] }
     (by decide) (by decide) (by decide) (by decide)⟩

/-! ### Cleanup strategy selection (C7) -/

lemma targetedDelete_strategy (u : User) (w : S3World) :
    (targetedDelete u w).1.strategy = "targeted" := by
  unfold targetedDelete
  dsimp only
  split
  · rfl
  · split <;> rfl

lemma orphanScan_strategy (uid : String) (r : CleanupResult) (w : S3World) :
    (orphanScan uid r w).1.strategy = r.strategy := by
  unfold orphanScan
  dsimp only
  split
  · rfl
  · split
    · rfl
    · split <;> rfl

lemma targetedDelete_bulk_mem (u : User) (w : S3World)
    (h : (knownKeysOf u).filter (fun k => k ≠ "") ≠ []) :
    S3Call.deleteObjects ((knownKeysOf u).filter (fun k => k ≠ ""))
      ∈ (targetedDelete u w).2.2 := by
  have hie : ((knownKeysOf u).filter (fun k => k ≠ "")).isEmpty = false := by
    cases hu : (knownKeysOf u).filter (fun k => k ≠ "") with
    | nil => exact absurd hu h
    | cons a l => rfl
  unfold targetedDelete
  dsimp only
  rw [if_neg (by rw [hie]; exact Bool.false_ne_true)]
  split <;> simp

lemma hasBulkDelete_of_mem {t : List S3Call} {ks : List String}
    (h : S3Call.deleteObjects ks ∈ t) : hasBulkDelete t = true := by
  unfold hasBulkDelete
  rw [List.any_eq_true]
  exact ⟨_, h, rfl⟩

/-- **C7 (counterexample)**: a record whose only populated version field is a
thumbnail URL that does not embed the store host yields strategy `targeted`
but zero multi-object delete calls (the claimed "at least one deleteMany
call" fails): no key can be extracted from the record and the namespace scan
finds nothing. -/
theorem c7_counterexample :
    hasPhotos { cognito_id := "u", nickname := "n", thumbnail_url := some "x" } = true ∧
    (delete_user_photos_optimized
        (some { cognito_id := "u", nickname := "n", thumbnail_url := some "x" })
        "u" "b" { objects := [] }).1.strategy = "targeted" ∧
    hasBulkDelete (delete_user_photos_optimized
        (some { cognito_id := "u", nickname := "n", thumbnail_url := some "x" })
        "u" "b" { objects := [] }).2.2 = false := by
  decide

/-- **C7 (amended)**: with a configured bucket, an owner with no populated
version fields (or no record) gets strategy skip and zero object-store
calls; an owner with any populated field gets strategy targeted, and at
least one multi-object delete call is issued provided at least one non-empty
key can be extracted from the record (a stored S3 key field, or a URL
embedding the store host). -/
theorem c7_amended_strategy_selection :
    (∀ (user : Option User) (uid bucket : String) (w : S3World),
        bucket ≠ "" →
        (match user with
         | none => True
         | some u => hasPhotos u = false) →
        ((delete_user_photos_optimized user uid bucket w).1.strategy = "skip_no_photos" ∧
         (delete_user_photos_optimized user uid bucket w).2.2 = [])) ∧
    (∀ (u : User) (uid bucket : String) (w : S3World),
        bucket ≠ "" → hasPhotos u = true →
        ((delete_user_photos_optimized (some u) uid bucket w).1.strategy = "targeted" ∧
         ((knownKeysOf u).filter (fun k => k ≠ "") ≠ [] →
           hasBulkDelete (delete_user_photos_optimized (some u) uid bucket w).2.2
             = true))) := by
  constructor
  · intro user uid bucket w hb hu
    unfold delete_user_photos_optimized
    rw [if_neg hb]
    cases user with
    | none => simp
    | some u => simp [hu]
  · intro u uid bucket w hb hu
    unfold delete_user_photos_optimized
    rw [if_neg hb]
    simp only [hu, Bool.not_true, Bool.false_eq_true, if_false]
    refine ⟨?_, fun hkeys => ?_⟩
    · rw [orphanScan_strategy, targetedDelete_strategy]
    · exact hasBulkDelete_of_mem
        (List.mem_append_left _ (targetedDelete_bulk_mem u _ hkeys))

theorem c7_amended_witness :
    let u : User := { cognito_id := "u", nickname := "n",
                      standard_s3_key := some "users/u/standard_a.jpg" }
    ("b" ≠ "" ∧ hasPhotos { cognito_id := "u", nickname := "n" : User } = false ∧
      hasPhotos u = true ∧ (knownKeysOf u).filter (fun k => k ≠ "") ≠ []) ∧
    ((delete_user_photos_optimized (some { cognito_id := "u", nickname := "n" })
        "u" "b" { objects := [] }).1.strategy = "skip_no_photos" ∧
     (delete_user_photos_optimized (some { cognito_id := "u", nickname := "n" })
        "u" "b" { objects := [] }).2.2 = []) ∧
    ((delete_user_photos_optimized (some u) "u" "b" { objects := [] }).1.strategy
        = "targeted" ∧
     hasBulkDelete (delete_user_photos_optimized (some u) "u" "b"
        { objects := [] }).2.2 = true) :=
  ⟨⟨by decide, by decide, by decide, by decide⟩,
   (c7_amended_strategy_selection.1
     (some { cognito_id := "u", nickname := "n" }) "u" "b" { objects := [] }
     (by decide) (by decide)),
   ⟨(c7_amended_strategy_selection.2
      { cognito_id := "u", nickname := "n",
        standard_s3_key := some "users/u/standard_a.jpg" } "u" "b"
      { objects := [] } (by decide) (by decide)).1,
    (c7_amended_strategy_selection.2
      { cognito_id := "u", nickname := "n",
        standard_s3_key := some "users/u/standard_a.jpg" } "u" "b"
      { objects := [] } (by decide) (by decide)).2 (by decide)⟩⟩

/-! ### Bulk-delete fallback lemmas (C4) -/

@[simp] lemma afterSingleDelete_singleFails (w : S3World) (k : String) :
    (afterSingleDelete w k).singleFails = w.singleFails := rfl

@[simp] lemma afterSingleDelete_listFails (w : S3World) (k : String) :
    (afterSingleDelete w k).listFails = w.listFails := rfl

lemma fallbackDeleteLoop_calls : ∀ (ks : List String) (w : S3World),
    (fallbackDeleteLoop w ks).2.2.2.2
      = (ks.filter (fun k => k ≠ "")).map S3Call.deleteObject := by
  intro ks
  induction ks with
  | nil => intro w; rfl
  | cons k rest ih =>
    intro w
    by_cases hk : k = ""
    · simp [fallbackDeleteLoop, hk, ih]
    · by_cases hf : w.singleFails k
      · simp [fallbackDeleteLoop, hk, hf, ih]
      · simp [fallbackDeleteLoop, hk, hf, ih]

lemma fallbackDeleteLoop_errors : ∀ (ks : List String) (w : S3World),
    (fallbackDeleteLoop w ks).2.1.map DelError.key
      = ks.filter (fun k => k ≠ "" && w.singleFails k) := by
  intro ks
  induction ks with
  | nil => intro w; rfl
  | cons k rest ih =>
    intro w
    by_cases hk : k = ""
    · simp [fallbackDeleteLoop, hk, ih]
    · by_cases hf : w.singleFails k
      · simp [fallbackDeleteLoop, hk, hf, ih]
      · simp [fallbackDeleteLoop, hk, hf, ih]

lemma fallbackDeleteLoop_listFails : ∀ (ks : List String) (w : S3World),
    ((fallbackDeleteLoop w ks).2.2.2.1).listFails = w.listFails := by
  intro ks
  induction ks with
  | nil => intro w; rfl
  | cons k rest ih =>
    intro w
    by_cases hk : k = ""
    · simp [fallbackDeleteLoop, hk, ih]
    · by_cases hf : w.singleFails k
      · simp [fallbackDeleteLoop, hk, hf, ih]
      · simp [fallbackDeleteLoop, hk, hf, ih]

lemma batchFallbackLoop_calls : ∀ (ks : List String) (w : S3World),
    (batchFallbackLoop w ks).2.2 = ks.map S3Call.deleteObject := by
  intro ks
  induction ks with
  | nil => intro w; rfl
  | cons k rest ih =>
    intro w
    by_cases hf : w.singleFails k
    · simp [batchFallbackLoop, hf, ih]
    · simp [batchFallbackLoop, hf, ih]

lemma batchFallbackLoop_deleted : ∀ (ks : List String) (w : S3World),
    (batchFallbackLoop w ks).1 = ks.filter (fun k => !w.singleFails k) := by
  intro ks
  induction ks with
  | nil => intro w; rfl
  | cons k rest ih =>
    intro w
    by_cases hf : w.singleFails k
    · simp [batchFallbackLoop, hf, ih]
    · simp [batchFallbackLoop, hf, ih]

lemma chunksOf_singleton (l : List String) (h0 : l ≠ []) (hle : l.length ≤ 1000) :
    chunksOf 1000 l = [l] := by
  cases l with
  | nil => exact absurd rfl h0
  | cons x xs =>
    have h1 : xs.take (1000 - 1) = xs := by
      apply List.take_of_length_le
      simp only [List.length_cons] at hle
      omega
    have h2 : xs.drop (1000 - 1) = [] := by
      apply List.drop_eq_nil_of_le
      simp only [List.length_cons] at hle
      omega
    simp [chunksOf, chunksOfGo, h1, h2]

lemma targetedDelete_bulkFails (u : User) (w : S3World)
    (hdd : (knownKeysOf u).filter (fun k => k ≠ "") ≠ [])
    (hbulk : w.bulkFails ((knownKeysOf u).filter (fun k => k ≠ "")) = true) :
    targetedDelete u w =
      (⟨(fallbackDeleteLoop w (knownKeysOf u)).1,
        (fallbackDeleteLoop w (knownKeysOf u)).2.1,
        (fallbackDeleteLoop w (knownKeysOf u)).2.2.1, "targeted"⟩,
       (fallbackDeleteLoop w (knownKeysOf u)).2.2.2.1,
       S3Call.deleteObjects ((knownKeysOf u).filter (fun k => k ≠ ""))
         :: (fallbackDeleteLoop w (knownKeysOf u)).2.2.2.2) := by
  have hie : ((knownKeysOf u).filter (fun k => k ≠ "")).isEmpty = false := by
    cases hu : (knownKeysOf u).filter (fun k => k ≠ "") with
    | nil => exact absurd hu hdd
    | cons a l => rfl
  unfold targetedDelete
  dsimp only
  rw [if_neg (by rw [hie]; exact Bool.false_ne_true), if_pos hbulk]

lemma orphanScan_listFails (uid : String) (r : CleanupResult) (w : S3World)
    (h : w.listFails = true) :
    orphanScan uid r w =
      (r, w, [S3Call.listObjects ("users/" ++ uid ++ "/") (some 100)]) := by
  unfold orphanScan
  dsimp only
  rw [if_pos h]

/-- **C4 (counterexample)**: a store whose multi-object delete succeeds but
reports the key as failed refutes the claim.  In the batch orchestrator's
namespace deletion the key is not retried with a single-object delete and is
silently dropped from the report; in the upload cleanup it is not retried
either, and it is recorded twice in deletion_errors (once by the targeted
delete, once more by the orphan scan). -/
theorem c4_counterexample :
    ((delete_user_photos "u" "b"
        { objects := ["users/u/a.jpg"], keyError := fun _ => true }).1 = [] ∧
     (delete_user_photos "u" "b"
        { objects := ["users/u/a.jpg"], keyError := fun _ => true }).2.2 =
       [S3Call.listObjects "users/u/" none, S3Call.deleteObjects ["users/u/a.jpg"]]) ∧
    ((delete_user_photos_optimized
        (some { cognito_id := "u", nickname := "n",
                standard_s3_key := some "users/u/a.jpg" }) "u" "b"
        { objects := ["users/u/a.jpg"], keyError := fun _ => true }).1.deletion_errors.map
          DelError.key = ["users/u/a.jpg", "users/u/a.jpg"] ∧
     (delete_user_photos_optimized
        (some { cognito_id := "u", nickname := "n",
                standard_s3_key := some "users/u/a.jpg" }) "u" "b"
        { objects := ["users/u/a.jpg"], keyError := fun _ => true }).2.2 =
       [S3Call.deleteObjects ["users/u/a.jpg"],
        S3Call.listObjects "users/u/" (some 100),
        S3Call.deleteObjects ["users/u/a.jpg"]]) := by
  decide

/-- **C4 (amended)**: the single-object retry happens exactly when the
multi-object delete call itself throws.  In that case, in the upload
cleanup, every non-empty known key is retried individually and each key
whose retry also fails appears exactly once in deletion_errors; in the batch
namespace deletion (up to 1000 listed keys) every key is retried
individually and exactly the keys whose retry succeeds are reported deleted.
Keys reported as failed by a non-throwing bulk call are not retried.  Both
functions are total: per-key failures never raise. -/
theorem c4_amended_bulk_fallback :
    (∀ (u : User) (uid bucket : String) (w : S3World),
        bucket ≠ "" → hasPhotos u = true → (knownKeysOf u).Nodup →
        (knownKeysOf u).filter (fun k => k ≠ "") ≠ [] →
        w.bulkFails ((knownKeysOf u).filter (fun k => k ≠ "")) = true →
        w.listFails = true →
        ∀ k ∈ knownKeysOf u, k ≠ "" →
          (S3Call.deleteObject k ∈ (delete_user_photos_optimized (some u) uid bucket w).2.2 ∧
           ((delete_user_photos_optimized (some u) uid bucket w).1.deletion_errors.map
              DelError.key).count k = if w.singleFails k then 1 else 0)) ∧
    (∀ (uid bucket : String) (w : S3World),
        w.listFails = false →
        listUnder w ("users/" ++ uid ++ "/") none ≠ [] →
        (listUnder w ("users/" ++ uid ++ "/") none).length ≤ 1000 →
        w.bulkFails (listUnder w ("users/" ++ uid ++ "/") none) = true →
        ((delete_user_photos uid bucket w).1
           = (listUnder w ("users/" ++ uid ++ "/") none).filter (fun k => !w.singleFails k) ∧
         ∀ k ∈ listUnder w ("users/" ++ uid ++ "/") none,
           S3Call.deleteObject k ∈ (delete_user_photos uid bucket w).2.2)) := by
  constructor
  · intro u uid bucket w hb hp hnd hdd hbulk hlist k hk hke
    unfold delete_user_photos_optimized
    rw [if_neg hb]
    simp only [hp, Bool.not_true, Bool.false_eq_true, if_false]
    rw [targetedDelete_bulkFails u w hdd hbulk]
    rw [orphanScan_listFails uid _ _ (by rw [fallbackDeleteLoop_listFails]; exact hlist)]
    constructor
    · refine List.mem_append_left _ (List.mem_cons_of_mem _ ?_)
      rw [fallbackDeleteLoop_calls]
      exact List.mem_map_of_mem _ (List.mem_filter.2 ⟨hk, by simp [hke]⟩)
    · rw [fallbackDeleteLoop_errors]
      by_cases hf : w.singleFails k
      · rw [if_pos hf]
        rw [List.count_filter (by simp [hke, hf])]
        exact List.count_eq_one_of_mem hnd hk
      · rw [if_neg hf]
        apply List.count_eq_zero_of_not_mem
        intro hmem
        rw [List.mem_filter] at hmem
        simp [hf] at hmem
  · intro uid bucket w hlist hne hlen hbulk
    have hie : (listUnder w ("users/" ++ uid ++ "/") none).isEmpty = false := by
      cases hu : listUnder w ("users/" ++ uid ++ "/") none with
      | nil => exact absurd hu hne
      | cons a l => rfl
    unfold delete_user_photos
    dsimp only
    rw [if_neg (by rw [hlist]; exact Bool.false_ne_true)]
    rw [if_neg (by rw [hie]; exact Bool.false_ne_true)]
    rw [chunksOf_singleton _ hne hlen]
    simp only [deleteBatches, deleteBatch]
    rw [if_pos hbulk]
    constructor
    · rw [batchFallbackLoop_deleted]
      simp
    · intro k hk
      refine List.mem_cons_of_mem _ (List.mem_append_left _ (List.mem_cons_of_mem _ ?_))
      rw [batchFallbackLoop_calls]
      exact List.mem_map_of_mem _ hk

theorem c4_amended_witness :
    let u : User := { cognito_id := "u", nickname := "n",
                      standard_s3_key := some "users/u/a.jpg" }
    let w1 : S3World := { objects := ["users/u/a.jpg"], bulkFails := fun _ => true,
                          singleFails := fun _ => true, listFails := true }
    let w2 : S3World := { objects := ["users/u/a.jpg"], bulkFails := fun _ => true }
    ("b" ≠ "" ∧ hasPhotos u = true ∧ (knownKeysOf u).Nodup ∧
      (knownKeysOf u).filter (fun k => k ≠ "") ≠ [] ∧
      w1.bulkFails ((knownKeysOf u).filter (fun k => k ≠ "")) = true ∧
      w1.listFails = true ∧ "users/u/a.jpg" ∈ knownKeysOf u ∧
      ("users/u/a.jpg" : String) ≠ "") ∧
    (S3Call.deleteObject "users/u/a.jpg"
        ∈ (delete_user_photos_optimized (some u) "u" "b" w1).2.2 ∧
     ((delete_user_photos_optimized (some u) "u" "b" w1).1.deletion_errors.map
        DelError.key).count "users/u/a.jpg"
          = if w1.singleFails "users/u/a.jpg" then 1 else 0) ∧
    (w2.listFails = false ∧ listUnder w2 "users/u/" none ≠ [] ∧
      (listUnder w2 "users/u/" none).length ≤ 1000 ∧
      w2.bulkFails (listUnder w2 "users/u/" none) = true) ∧
    ((delete_user_photos "u" "b" w2).1
        = (listUnder w2 "users/u/" none).filter (fun k => !w2.singleFails k) ∧
     ∀ k ∈ listUnder w2 "users/u/" none,
       S3Call.deleteObject k ∈ (delete_user_photos "u" "b" w2).2.2) :=
  ⟨⟨by decide, by decide, by decide, by decide, by decide, by decide, by decide,
    by decide⟩,
   c4_amended_bulk_fallback.1
     { cognito_id := "u", nickname := "n", standard_s3_key := some "users/u/a.jpg" }
     "u" "b" _ (by decide) (by decide) (by decide) (by decide) (by decide) (by decide)
     "users/u/a.jpg" (by decide) (by decide),
   ⟨by decide, by decide, by decide, by decide⟩,
   c4_amended_bulk_fallback.2 "u" "b" _ (by decide) (by decide) (by decide) (by decide)⟩

/-! ### First-time upload without nickname (C2) -/

@[simp] lemma afterPut_putFails (w : S3World) (k : String) :
    (afterPut w k).putFails = w.putFails := rfl

lemma uploadVersions_ok :
    ∀ (cfgs : List (String × Nat × Nat)) (uid ts nonce bucket : String) (w : S3World),
      (∀ k, w.putFails k = false) →
      ∃ keys urls w' t,
        uploadVersions uid ts nonce bucket w cfgs = .ok (keys, urls, w', t) ∧
        putCount t = cfgs.length := by
  intro cfgs
  induction cfgs with
  | nil =>
    intro uid ts nonce bucket w hw
    exact ⟨[], [], w, [], rfl, rfl⟩
  | cons cfg rest ih =>
    intro uid ts nonce bucket w hw
    obtain ⟨keys, urls, w', t, hok, hcount⟩ :=
      ih uid ts nonce bucket
        (afterPut w ("users/" ++ uid ++ "/" ++ cfg.1 ++ "_" ++ ts ++ "_" ++ nonce ++ ".jpg"))
        (fun k => hw k)
    unfold uploadVersions
    rw [if_neg (by rw [hw]; exact Bool.false_ne_true)]
    dsimp only
    rw [hok]
    refine ⟨_, _, _, _, rfl, ?_⟩
    by_cases hthumb : cfg.1 = "thumbnail" <;>
      simp [putCount, hthumb, List.countP_cons, List.countP_append] at hcount ⊢ <;>
      omega

/-- **C2 (counterexample)**: a first-time upload (no user record) whose body
lacks a nickname does return 400, but three put_object calls have already
been issued by then — the claimed "zero uploads to the object store" is
false. -/
theorem c2_counterexample :
    (uploadHandler ⟨"u", "u", some (.jsonBody (some [0]) none)⟩ [] { objects := [] }
        (fun _ => some ⟨100, 100, "RGB", false⟩) "t" "n" "b").status = 400 ∧
    putCount (uploadHandler ⟨"u", "u", some (.jsonBody (some [0]) none)⟩ []
        { objects := [] } (fun _ => some ⟨100, 100, "RGB", false⟩) "t" "n" "b").calls
      = 3 ∧
    ¬(putCount (uploadHandler ⟨"u", "u", some (.jsonBody (some [0]) none)⟩ []
        { objects := [] } (fun _ => some ⟨100, 100, "RGB", false⟩) "t" "n" "b").calls
      = 0) := by
  decide

/-- **C2 (amended)**: for every first-time upload (no existing user record)
whose JSON body carries a valid image but no nickname, the handler returns
status 400 and leaves the user table unchanged — but only after issuing
exactly three put_object calls (one per derived version); the uploads are
not prevented. -/
theorem c2_amended_first_upload_without_nickname
    (ev : UploadEvent) (db : List User) (w : S3World)
    (decode : List Nat → Option PImage) (ts nonce bucket : String)
    (bytes : List Nat) (img : PImage)
    (htok : ev.tokenSub = ev.pathUserId)
    (hbody : ev.body = some (.jsonBody (some bytes) none))
    (hsize : bytes.length ≤ MAX_IMAGE_SIZE)
    (hdec : decode bytes = some img)
    (hput : ∀ k, w.putFails k = false)
    (hdb : dbGet db ev.pathUserId = none) :
    (uploadHandler ev db w decode ts nonce bucket).status = 400 ∧
    putCount (uploadHandler ev db w decode ts nonce bucket).calls = 3 ∧
    (uploadHandler ev db w decode ts nonce bucket).db = db := by
  obtain ⟨keys, urls, w', t, hok, hcount⟩ :=
    uploadVersions_ok versionConfigs ev.pathUserId ts nonce bucket w hput
  unfold uploadHandler
  rw [if_neg (fun hne => hne htok)]
  rw [hbody]
  dsimp only
  rw [if_neg (Nat.not_lt.2 hsize)]
  rw [hdec]
  dsimp only [create_image_versions]
  rw [hok, hdb]
  exact ⟨rfl, by simpa using hcount, rfl⟩

theorem c2_amended_witness :
    let ev : UploadEvent := ⟨"u", "u", some (.jsonBody (some [0]) none)⟩
    let w : S3World := { objects := [] }
    let dec : List Nat → Option PImage := fun _ => some ⟨100, 100, "RGB", false⟩
    (ev.tokenSub = ev.pathUserId ∧ ev.body = some (.jsonBody (some [0]) none) ∧
      ([0] : List Nat).length ≤ MAX_IMAGE_SIZE ∧
      dec [0] = some ⟨100, 100, "RGB", false⟩ ∧
      (∀ k, w.putFails k = false) ∧ dbGet [] ev.pathUserId = none) ∧
    ((uploadHandler ev [] w dec "t" "n" "b").status = 400 ∧
     putCount (uploadHandler ev [] w dec "t" "n" "b").calls = 3 ∧
     (uploadHandler ev [] w dec "t" "n" "b").db = []) :=
  ⟨⟨rfl, rfl, by decide, rfl, fun _ => rfl, rfl⟩,
   c2_amended_first_upload_without_nickname ⟨"u", "u", some (.jsonBody (some [0]) none)⟩
     [] { objects := [] } (fun _ => some ⟨100, 100, "RGB", false⟩) "t" "n" "b"
     [0] ⟨100, 100, "RGB", false⟩ rfl rfl (by decide) rfl (fun _ => rfl) rfl⟩

/-! ### Fresh uploads destroyed by the orphan scan (C1) -/

/-- **C1 (code evidence)**: the handler uploads the three freshly minted
keys first and only then runs the cleanup, whose bounded orphan scan deletes
every listed key not in the targeted set — including the three keys of the
current upload.  At this failing input the upload succeeds (200), but the
cleanup's deleted_files contains all three fresh keys, the store is left
empty, and the saved record points at objects that were just deleted.  This
contradicts the claim (and the spec) that delete and put target disjoint
keys and fresh keys are never among the deleted keys. -/
theorem c1_orphan_scan_deletes_fresh_uploads :
    (uploadHandler ⟨"u", "u", some (.jsonBody (some [0]) (some "n"))⟩
      [{ cognito_id := "u", nickname := "nick",
         standard_s3_key := some "users/u/standard_old.jpg" }]
      { objects := ["users/u/standard_old.jpg"] }
      (fun _ => some ⟨100, 100, "RGB", false⟩) "t" "n" "b" |> fun r =>
    r.status = 200 ∧
    r.s3_keys = [("thumbnail", "users/u/thumbnail_t_n.jpg"),
                 ("standard", "users/u/standard_t_n.jpg"),
                 ("high_res", "users/u/high_res_t_n.jpg")] ∧
    r.cleanup.map (fun c => c.deleted_files) =
      some ["users/u/standard_old.jpg", "users/u/thumbnail_t_n.jpg",
            "users/u/standard_t_n.jpg", "users/u/high_res_t_n.jpg"] ∧
    r.w.objects = [] ∧
    (dbGet r.db "u").map (fun u => u.standard_s3_key)
      = some (some "users/u/standard_t_n.jpg")) := by
  decide

end UserService
